import Mathlib

/-
Shallow embedding of the bluetext-extension MCP client (src/src/mcpService.ts)
and the webview parameter-coercion logic (src/src/commands.ts), together with
the host primitives they rely on (JavaScript truthiness, member access,
parseInt, parseFloat, JSON.parse).  JSON numbers and JavaScript numbers are
modelled as exact rationals (plus NaN and signed infinities); none of the
verified properties depend on IEEE-754 rounding.
-/

/-- Severity levels accepted by WizardPanel.logToTerminal. -/
inductive Severity where
  | info
  | success
  | error
  | command
  deriving DecidableEq, Repr

/-- A JavaScript number: NaN, a signed infinity, or a finite value
(modelled as an exact rational). -/
inductive JSNumber where
  | nan
  | inf (neg : Bool)
  | fin (q : Rat)
  deriving DecidableEq, Repr

/-- A JavaScript value as it can appear in this client: undefined, null,
booleans, numbers, strings, arrays and plain objects (ordered field lists;
the JSON parser below never produces duplicate keys, matching JS objects). -/
inductive JSVal where
  | undefVal
  | null
  | bool (b : Bool)
  | num (n : JSNumber)
  | str (s : String)
  | arr (xs : List JSVal)
  | obj (fields : List (String × JSVal))

/-- JavaScript truthiness. -/
def JSVal.truthy : JSVal → Bool
  | .undefVal => false
  | .null => false
  | .bool b => b
  | .num .nan => false
  | .num (.inf _) => true
  | .num (.fin q) => decide (q ≠ 0)
  | .str s => !s.isEmpty
  | .arr _ => true
  | .obj _ => true

/-- Is the value null or undefined (the values on which member access throws)? -/
def JSVal.nullish : JSVal → Bool
  | .undefVal => true
  | .null => true
  | _ => false

/-- Is the value exactly undefined? -/
def JSVal.isUndefined : JSVal → Bool
  | .undefVal => true
  | _ => false

/-- First binding of a key in an ordered field list. -/
def objGet? : List (String × JSVal) → String → Option JSVal
  | [], _ => none
  | (k, v) :: rest, key => if k = key then some v else objGet? rest key

/-- JavaScript property assignment on an ordered field list: replaces the
value in place when the key exists, otherwise appends (insertion order). -/
def objSet : List (String × JSVal) → String → JSVal → List (String × JSVal)
  | [], key, v => [(key, v)]
  | (k, w) :: rest, key, v =>
      if k = key then (key, v) :: rest else (k, w) :: objSet rest key v

/-- Member access `a[k]` / `a.k` on a non-nullish value: object field lookup,
numeric index lookup on arrays and strings, undefined otherwise. -/
def jsGetMem (v : JSVal) (key : String) : JSVal :=
  match v with
  | .obj fields =>
      match objGet? fields key with
      | some w => w
      | none => .undefVal
  | .arr xs =>
      match key.toNat? with
      | some i => if toString i = key then (xs.getD i .undefVal) else .undefVal
      | none => .undefVal
  | .str s =>
      match key.toNat? with
      | some i =>
          if toString i = key ∧ i < s.length then .str (String.singleton (s.get ⟨i⟩)) else .undefVal
      | none => .undefVal
  | _ => .undefVal

/-- Optional chaining `a?.k`: undefined on nullish receivers, plain member
access otherwise. -/
def jsOptChain (v : JSVal) (key : String) : JSVal :=
  if v.nullish then .undefVal else jsGetMem v key

/-- Unguarded member access `a.k`: a TypeError on nullish receivers. -/
def jsGetStrict (v : JSVal) (key : String) : Except String JSVal :=
  if v.nullish then .error "TypeError: Cannot read properties of null or undefined"
  else .ok (jsGetMem v key)

/-- The `a || b` idiom used for defaulting. -/
def jsOr (a b : JSVal) : JSVal := if a.truthy then a else b

/-- `Object.keys`: field names of an object (JS objects have unique keys,
and the JSON parser above collapses duplicates, so the field-name list is
exactly the key list), index strings for arrays and strings, empty for
primitives. -/
def jsKeys (v : JSVal) : List String :=
  match v with
  | .obj fields => fields.map Prod.fst
  | .arr xs => (List.range xs.length).map toString
  | .str s => (List.range s.length).map toString
  | _ => []

/-- Decimal digits 0-9. -/
def isDigitChar (c : Char) : Bool := '0' ≤ c ∧ c ≤ '9'

/-- Whitespace skipped by parseInt, parseFloat and JSON.parse. -/
def isJsWS (c : Char) : Bool := c = ' ' ∨ c = '\t' ∨ c = '\n' ∨ c = '\r'

/-- Drop leading whitespace. -/
def dropWS (cs : List Char) : List Char := cs.dropWhile isJsWS

/-- The `String.prototype.trim` host function: strip whitespace from both
ends. -/
def jsTrim (s : String) : String :=
  String.mk ((dropWS ((dropWS s.data).reverse)).reverse)

/-- Split off the longest prefix of decimal digits. -/
def digitsPrefix (cs : List Char) : List Char × List Char :=
  (cs.takeWhile isDigitChar, cs.dropWhile isDigitChar)

/-- Numeric value of a digit list. -/
def digitsToNat : List Char → Nat
  | [] => 0
  | c :: rest => (c.toNat - '0'.toNat) * 10 ^ rest.length + digitsToNat rest

/-- Optional leading sign: returns (isNegative, remaining input). -/
def signSplit : List Char → Bool × List Char
  | '-' :: rest => (true, rest)
  | '+' :: rest => (false, rest)
  | cs => (false, cs)

/-- Exponent suffix of a parseFloat literal: consumed only when at least one
digit follows the `e`/`E` (and optional sign); otherwise contributes 0. -/
def expSuffix (cs : List Char) : Int :=
  match cs with
  | c :: rest =>
      if c = 'e' ∨ c = 'E' then
        let (eneg, rest2) := signSplit rest
        let (eds, _) := digitsPrefix rest2
        if eds.isEmpty then 0
        else if eneg then -(digitsToNat eds : Int) else (digitsToNat eds : Int)
      else 0
  | [] => 0

/-- The ECMAScript `parseFloat` host function, restricted to the decimal and
Infinity forms: skip whitespace, optional sign, then the longest prefix that
is `digits [. digits] [exponent]` or `. digits [exponent]` or `Infinity`;
NaN when no such prefix exists. -/
def parseFloatJS (s : String) : JSNumber :=
  let cs := dropWS s.data
  let (neg, cs1) := signSplit cs
  if "Infinity".data.isPrefixOf cs1 then .inf neg
  else
    let (ip, r1) := digitsPrefix cs1
    let (fp, r2) :=
      match r1 with
      | '.' :: t => digitsPrefix t
      | _ => ([], r1)
    if ip.isEmpty ∧ fp.isEmpty then .nan
    else
      let mant : Rat := (digitsToNat ip : Rat) + (digitsToNat fp : Rat) / (10 : Rat) ^ fp.length
      let v : Rat := mant * (10 : Rat) ^ (expSuffix r2)
      .fin (if neg then -v else v)

/-- The ECMAScript `parseInt(s, 10)` host function: skip whitespace, optional
sign, then the longest prefix of decimal digits; NaN when there is none. -/
def parseIntJS (s : String) : JSNumber :=
  let cs := dropWS s.data
  let (neg, cs1) := signSplit cs
  let (ds, _) := digitsPrefix cs1
  if ds.isEmpty then .nan
  else .fin (if neg then -(digitsToNat ds : Rat) else (digitsToNat ds : Rat))

/-- Value of a hexadecimal digit. -/
def hexVal (c : Char) : Option Nat :=
  if '0' ≤ c ∧ c ≤ '9' then some (c.toNat - '0'.toNat)
  else if 'a' ≤ c ∧ c ≤ 'f' then some (c.toNat - 'a'.toNat + 10)
  else if 'A' ≤ c ∧ c ≤ 'F' then some (c.toNat - 'A'.toNat + 10)
  else none

/-- Body of a JSON string literal, after the opening quote: accumulates
characters up to the closing quote, decoding the JSON escape sequences and
rejecting raw control characters. -/
def parseJStringAux : Nat → List Char → List Char → Except String (String × List Char)
  | 0, _, _ => .error "Unexpected end of JSON input"
  | fuel + 1, acc, cs =>
    match cs with
    | [] => .error "Unexpected end of JSON input"
    | '"' :: rest => .ok (String.mk acc.reverse, rest)
    | '\\' :: rest =>
        match rest with
        | [] => .error "Unexpected end of JSON input"
        | e :: rest2 =>
          if e = '"' then parseJStringAux fuel ('"' :: acc) rest2
          else if e = '\\' then parseJStringAux fuel ('\\' :: acc) rest2
          else if e = '/' then parseJStringAux fuel ('/' :: acc) rest2
          else if e = 'b' then parseJStringAux fuel (Char.ofNat 8 :: acc) rest2
          else if e = 'f' then parseJStringAux fuel (Char.ofNat 12 :: acc) rest2
          else if e = 'n' then parseJStringAux fuel ('\n' :: acc) rest2
          else if e = 'r' then parseJStringAux fuel ('\r' :: acc) rest2
          else if e = 't' then parseJStringAux fuel ('\t' :: acc) rest2
          else if e = 'u' then
            match rest2 with
            | h1 :: h2 :: h3 :: h4 :: rest3 =>
              match hexVal h1, hexVal h2, hexVal h3, hexVal h4 with
              | some a, some b, some c, some d =>
                  parseJStringAux fuel (Char.ofNat (((a * 16 + b) * 16 + c) * 16 + d) :: acc) rest3
              | _, _, _, _ => .error "Bad Unicode escape"
            | _ => .error "Unexpected end of JSON input"
          else .error "Bad escaped character"
    | c :: rest =>
        if c.toNat < 32 then .error "Bad control character in string literal"
        else parseJStringAux fuel (c :: acc) rest

/-- A JSON string literal after its opening quote. -/
def parseJString (cs : List Char) : Except String (String × List Char) :=
  parseJStringAux (cs.length + 1) [] cs

/-- A JSON number literal (strict JSON grammar: optional minus, integer part
without leading zeros, optional fraction, optional exponent with mandatory
digits), as an exact rational. -/
def parseJNumber (cs : List Char) : Except String (Rat × List Char) :=
  let (neg, cs1) :=
    match cs with
    | '-' :: t => (true, t)
    | _ => (false, cs)
  let (ip, r1) := digitsPrefix cs1
  if ip.isEmpty then .error "Unexpected token"
  else if ip.length > 1 ∧ ip.headD '0' = '0' then .error "Unexpected number"
  else
    let fracRes : Except String (List Char × List Char) :=
      match r1 with
      | '.' :: t =>
          let (fp, r2) := digitsPrefix t
          if fp.isEmpty then .error "Unexpected token" else .ok (fp, r2)
      | _ => .ok ([], r1)
    match fracRes with
    | .error e => .error e
    | .ok (fp, r2) =>
      let expRes : Except String (Int × List Char) :=
        match r2 with
        | c :: t =>
            if c = 'e' ∨ c = 'E' then
              let (eneg, t2) := signSplit t
              let (eds, r3) := digitsPrefix t2
              if eds.isEmpty then .error "Unexpected token"
              else .ok ((if eneg then -(digitsToNat eds : Int) else (digitsToNat eds : Int)), r3)
            else .ok (0, r2)
        | [] => .ok (0, r2)
      match expRes with
      | .error e => .error e
      | .ok (ex, r3) =>
        let mant : Rat := (digitsToNat ip : Rat) + (digitsToNat fp : Rat) / (10 : Rat) ^ fp.length
        let v : Rat := mant * (10 : Rat) ^ ex
        .ok ((if neg then -v else v), r3)

mutual

/-- One JSON value, by recursive descent (fuel decreases on every recursive
call; the top-level entry point supplies enough fuel for any input). -/
def parseJVal : Nat → List Char → Except String (JSVal × List Char)
  | 0, _ => .error "Too much nesting"
  | fuel + 1, cs =>
    match dropWS cs with
    | [] => .error "Unexpected end of JSON input"
    | c :: rest =>
      if c = 'n' then
        if "ull".data.isPrefixOf rest then .ok (.null, rest.drop 3)
        else .error "Unexpected token"
      else if c = 't' then
        if "rue".data.isPrefixOf rest then .ok (.bool true, rest.drop 3)
        else .error "Unexpected token"
      else if c = 'f' then
        if "alse".data.isPrefixOf rest then .ok (.bool false, rest.drop 4)
        else .error "Unexpected token"
      else if c = '"' then
        match parseJString rest with
        | .error e => .error e
        | .ok (s, r) => .ok (.str s, r)
      else if c = '[' then
        match dropWS rest with
        | ']' :: r2 => .ok (.arr [], r2)
        | _ => parseJArrItems fuel [] rest
      else if c = '{' then
        match dropWS rest with
        | '}' :: r2 => .ok (.obj [], r2)
        | _ => parseJObjItems fuel [] rest
      else if c = '-' ∨ isDigitChar c then
        match parseJNumber (c :: rest) with
        | .error e => .error e
        | .ok (q, r) => .ok (.num (.fin q), r)
      else .error "Unexpected token"

/-- Comma-separated array elements up to the closing bracket. -/
def parseJArrItems : Nat → List JSVal → List Char → Except String (JSVal × List Char)
  | 0, _, _ => .error "Too much nesting"
  | fuel + 1, acc, cs =>
    match parseJVal fuel cs with
    | .error e => .error e
    | .ok (v, r) =>
      match dropWS r with
      | ',' :: r2 => parseJArrItems fuel (v :: acc) r2
      | ']' :: r2 => .ok (.arr (v :: acc).reverse, r2)
      | _ => .error "Unexpected token"

/-- Comma-separated object members up to the closing brace; a repeated key
overwrites the earlier value in place, as JS object literals do. -/
def parseJObjItems : Nat → List (String × JSVal) → List Char → Except String (JSVal × List Char)
  | 0, _, _ => .error "Too much nesting"
  | fuel + 1, acc, cs =>
    match dropWS cs with
    | '"' :: r =>
      match parseJString r with
      | .error e => .error e
      | .ok (k, r1) =>
        match dropWS r1 with
        | ':' :: r2 =>
          match parseJVal fuel r2 with
          | .error e => .error e
          | .ok (v, r3) =>
            match dropWS r3 with
            | ',' :: r4 => parseJObjItems fuel (objSet acc k v) r4
            | '}' :: r4 => .ok (.obj (objSet acc k v), r4)
            | _ => .error "Unexpected token"
        | _ => .error "Unexpected token"
    | _ => .error "Unexpected token"

end

/-- The host `JSON.parse`: one JSON document, with nothing but whitespace
allowed after it.  The error text plays the role of the SyntaxError message. -/
def jsonParse (s : String) : Except String JSVal :=
  match parseJVal (2 * s.length + 8) s.data with
  | .error e => .error e
  | .ok (v, rest) =>
      if (dropWS rest).isEmpty then .ok v else .error "Unexpected non-whitespace character after JSON"

/-- Rendering of a finite rational in log text (stands in for the JS number
formatting; it only ever feeds log-line text, never protocol data). -/
def ratToStr (q : Rat) : String :=
  if q.den = 1 then toString q.num else toString q.num ++ "/" ++ toString q.den

/-- Rendering of a JS number in template-literal text. -/
def numToStr : JSNumber → String
  | .nan => "NaN"
  | .inf neg => if neg then "-Infinity" else "Infinity"
  | .fin q => ratToStr q

mutual

/-- The host `String(x)` conversion as used in template literals:
arrays join their elements with commas (nullish elements become empty),
objects render as `[object Object]`. -/
def jsToStr : JSVal → String
  | .undefVal => "undefined"
  | .null => "null"
  | .bool b => if b then "true" else "false"
  | .num n => numToStr n
  | .str s => s
  | .arr xs => jsArrToStr xs
  | .obj _ => "[object Object]"

/-- `Array.prototype.join(",")`. -/
def jsArrToStr : List JSVal → String
  | [] => ""
  | [v] => if v.nullish then "" else jsToStr v
  | v :: rest => (if v.nullish then "" else jsToStr v) ++ "," ++ jsArrToStr rest

end

/-- A digit of the given radix (hex digits cover all smaller radixes). -/
def radixDigit (radix : Nat) (c : Char) : Option Nat :=
  match hexVal c with
  | some d => if d < radix then some d else none
  | none => none

/-- An unsigned whole-string radix literal (the part after 0x, 0o or 0b in
the ES StringToNumber coercion); NaN when empty or containing a non-digit. -/
def radixToNumber (radix : Nat) (cs : List Char) : JSNumber :=
  if cs.isEmpty then .nan
  else
    match cs.foldl (fun acc c =>
        match acc, radixDigit radix c with
        | some n, some d => some (n * radix + d)
        | _, _ => none) (some 0) with
    | some n => .fin n
    | none => .nan

/-- A signed whole-string decimal literal of the ES StringToNumber
coercion: optional sign, then Infinity or digits [. digits] [exponent],
with nothing left over; NaN otherwise (leading zeros are allowed here,
unlike in JSON). -/
def decToNumber (cs : List Char) : JSNumber :=
  let (neg, cs1) := signSplit cs
  if cs1 = "Infinity".data then .inf neg
  else
    let (ip, r1) := digitsPrefix cs1
    let (fp, r2) :=
      match r1 with
      | '.' :: t => digitsPrefix t
      | _ => ([], r1)
    if ip.isEmpty ∧ fp.isEmpty then .nan
    else
      let value : Int → JSNumber := fun ex =>
        let mant : Rat := (digitsToNat ip : Rat) + (digitsToNat fp : Rat) / (10 : Rat) ^ fp.length
        let v : Rat := mant * (10 : Rat) ^ ex
        .fin (if neg then -v else v)
      match r2 with
      | [] => value 0
      | c :: t =>
          if c = 'e' ∨ c = 'E' then
            let (eneg, t2) := signSplit t
            let (eds, r3) := digitsPrefix t2
            if eds.isEmpty ∨ ¬ r3.isEmpty then .nan
            else value (if eneg then -(digitsToNat eds : Int) else (digitsToNat eds : Int))
          else .nan

/-- The ES StringToNumber coercion: trim whitespace, empty becomes 0, then
a whole-string numeric literal (decimal with optional sign and exponent,
Infinity, or an unsigned 0x/0o/0b radix literal); NaN otherwise. -/
def strToNumber (s : String) : JSNumber :=
  let cs := (dropWS ((dropWS s.data).reverse)).reverse
  match cs with
  | [] => .fin 0
  | '0' :: c :: rest =>
      if c = 'x' ∨ c = 'X' then radixToNumber 16 rest
      else if c = 'o' ∨ c = 'O' then radixToNumber 8 rest
      else if c = 'b' ∨ c = 'B' then radixToNumber 2 rest
      else decToNumber cs
  | _ => decToNumber cs

/-- The ES ToNumber coercion: undefined is NaN, null and false are 0, true
is 1, strings go through StringToNumber, arrays go through their string
conversion, plain objects are NaN (ToPrimitive gives [object Object]). -/
def jsToNumber : JSVal → JSNumber
  | .undefVal => .nan
  | .null => .fin 0
  | .bool b => .fin (if b then 1 else 0)
  | .num n => n
  | .str s => strToNumber s
  | .arr xs => strToNumber (jsArrToStr xs)
  | .obj _ => .nan

/-- Is the JS number strictly greater than zero (the `> 0` comparison after
ToNumber; NaN compares false)? -/
def jsNumGtZero : JSNumber → Bool
  | .nan => false
  | .inf neg => !neg
  | .fin q => decide (0 < q)

/-- The value of `x.length`: the built-in length of arrays and strings, an
ordinary field on plain objects, undefined on other primitives. -/
def jsLengthVal : JSVal → JSVal
  | .arr xs => .num (.fin xs.length)
  | .str s => .num (.fin s.length)
  | .obj fields => jsGetMem (.obj fields) "length"
  | _ => .undefVal

/-- Is the value an array? -/
def JSVal.isArr : JSVal → Bool
  | .arr _ => true
  | _ => false

/-- Escapes of JSON string output. -/
def escapeJChar (c : Char) : String :=
  if c = '"' then "\\\""
  else if c = '\\' then "\\\\"
  else if c = '\n' then "\\n"
  else if c = '\r' then "\\r"
  else if c = '\t' then "\\t"
  else String.singleton c

/-- JSON string literal output. -/
def escapeJStr (s : String) : String :=
  "\"" ++ String.join (s.data.map escapeJChar) ++ "\""

mutual

/-- The host `JSON.stringify`, modelled without the pretty-printing
indentation (the code passes an indent of 2; only log-line text depends on
it, no protocol data or published value does). -/
def jsonStringify : JSVal → String
  | .undefVal => "null"
  | .null => "null"
  | .bool b => if b then "true" else "false"
  | .num .nan => "null"
  | .num (.inf _) => "null"
  | .num (.fin q) => ratToStr q
  | .str s => escapeJStr s
  | .arr xs => "[" ++ jsonStringifyItems xs ++ "]"
  | .obj fields => "\x7b" ++ jsonStringifyFields fields ++ "\x7d"

/-- Array elements of JSON.stringify output. -/
def jsonStringifyItems : List JSVal → String
  | [] => ""
  | [v] => jsonStringify v
  | v :: rest => jsonStringify v ++ "," ++ jsonStringifyItems rest

/-- Object members of JSON.stringify output. -/
def jsonStringifyFields : List (String × JSVal) → String
  | [] => ""
  | [(k, v)] => escapeJStr k ++ ":" ++ jsonStringify v
  | (k, v) :: rest => escapeJStr k ++ ":" ++ jsonStringify v ++ "," ++ jsonStringifyFields rest

end

/-- The message carried by a rejection value `new Error(x)`. -/
def newErrorMessage : JSVal → String
  | .undefVal => ""
  | v => jsToStr v

/-- An outgoing HTTP request as configured by McpService: connection options,
the client-side timeout installed with req.setTimeout (none when the code
installs no timeout), whether the timeout handler destroys the request, and
the JSON-RPC body (before serialisation). -/
structure HttpRequestConfig where
  hostname : String
  port : Nat
  path : String
  method : String
  timeoutMs : Option Nat
  destroysOnTimeout : Bool
  body : JSVal

/-- The request McpService.fetchTools issues (mcpService.ts lines 131-246):
POST /mcp, a 10 second timeout whose handler destroys the request, and the
jsonrpc tools/list body with id 1. -/
def fetchToolsRequest (mcpPort : Nat) : HttpRequestConfig :=
  { hostname := "127.0.0.1"
    port := mcpPort
    path := "/mcp"
    method := "POST"
    timeoutMs := some 10000
    destroysOnTimeout := true
    body := .obj [("jsonrpc", .str "2.0"), ("id", .num (.fin 1)),
                  ("method", .str "tools/list"), ("params", .obj [])] }

/-- The request McpService.checkServerHealth issues (mcpService.ts lines
54-108): POST /mcp, a 5 second timeout whose handler destroys the request,
and the jsonrpc tools/list body with id 999. -/
def healthCheckRequest (mcpPort : Nat) : HttpRequestConfig :=
  { hostname := "127.0.0.1"
    port := mcpPort
    path := "/mcp"
    method := "POST"
    timeoutMs := some 5000
    destroysOnTimeout := true
    body := .obj [("jsonrpc", .str "2.0"), ("id", .num (.fin 999)),
                  ("method", .str "tools/list"), ("params", .obj [])] }

/-- The request McpService.executeTool issues (mcpService.ts lines 264-324):
POST /mcp with the jsonrpc tools/call body; the code never calls
req.setTimeout on this request and installs no timeout handler. -/
def executeToolRequest (mcpPort : Nat) (toolName : JSVal)
    (args : List (String × JSVal)) : HttpRequestConfig :=
  { hostname := "127.0.0.1"
    port := mcpPort
    path := "/mcp"
    method := "POST"
    timeoutMs := none
    destroysOnTimeout := false
    body := .obj [("jsonrpc", .str "2.0"), ("id", .num (.fin 2)),
                  ("method", .str "tools/call"),
                  ("params", .obj [("name", toolName), ("arguments", .obj args)])] }

/-- The names of the first listed tools, via the strict member access
`t.name` of the source (a nullish element raises a TypeError). -/
def mapToolNames : List JSVal → Except String (List JSVal)
  | [] => .ok []
  | t :: rest =>
    match jsGetStrict t "name" with
    | .error e => .error e
    | .ok n =>
      match mapToolNames rest with
      | .error e => .error e
      | .ok ns => .ok (n :: ns)

/-- `Array.prototype.join(", ")` (nullish elements become empty strings). -/
def joinCommaSpace : List JSVal → String
  | [] => ""
  | [v] => if v.nullish then "" else jsToStr v
  | v :: rest => (if v.nullish then "" else jsToStr v) ++ ", " ++ joinCommaSpace rest

/-- The log lines of the fetchTools success path (mcpService.ts lines
162-168), inside the surrounding try: `tools.length > 0` reads the length
property (built in on arrays and strings, an ordinary field on objects)
and compares it after ToNumber coercion; when it passes, `tools.slice(0,
3).map(...)` raises a TypeError for every non-array tools value (strings
have slice but no map, other values have no slice). -/
def fetchSuccessLogs (tools : JSVal) : Except String (List (String × Severity)) :=
  if jsNumGtZero (jsToNumber (jsLengthVal tools)) then
    match tools with
    | .arr xs =>
        match mapToolNames (xs.take 3) with
        | .error e => .error e
        | .ok ns =>
            .ok [("✓ Found " ++ toString xs.length ++ " tools", .success),
                 ("Tools: " ++ joinCommaSpace ns ++ (if 3 < xs.length then "..." else ""), .info)]
    | .str _ => .error "TypeError: tools.slice(0, 3).map is not a function"
    | _ => .error "TypeError: tools.slice is not a function"
  else .ok [("⚠️  No tools found in response", .info)]

/-- What one McpService.fetchTools call leaves behind once the full response
body has arrived: the log lines, the payload handed to the webview in the
updateTools message (tools list and optional error string), and whether the
promise resolved or was rejected (with which message). -/
structure FetchResult where
  logs : List (String × Severity)
  publishedTools : JSVal
  publishedError : Option String
  outcome : Except String Unit

/-- The response-end handler of McpService.fetchTools (mcpService.ts lines
155-188): trim and JSON.parse the accumulated body; on success take
`response?.result?.tools || []`, log, publish the tools with no error and
resolve; on any exception inside the try, log the failure, publish an empty
list together with the stringified error, and reject. -/
def fetchToolsOnEnd (data : String) : FetchResult :=
  let base := [("✓ Response complete (" ++ toString data.length ++ " bytes total)", Severity.success)]
  match jsonParse (jsTrim data) with
  | .error e =>
      let es := "SyntaxError: " ++ e
      { logs := base ++ [("Failed to parse response: " ++ es, .error)]
        publishedTools := .arr []
        publishedError := some es
        outcome := .error es }
  | .ok response =>
      let tools := jsOr (jsOptChain (jsOptChain response "result") "tools") (.arr [])
      match fetchSuccessLogs tools with
      | .ok ls =>
          { logs := base ++ ls
            publishedTools := tools
            publishedError := none
            outcome := .ok () }
      | .error ex =>
          { logs := base ++ [("Failed to parse response: " ++ ex, .error)]
            publishedTools := .arr []
            publishedError := some ex
            outcome := .error ex }

/-- What one McpService.executeTool call leaves behind once the full
response body has arrived: its log lines and whether the promise resolved
or was rejected (with which message). -/
structure ExecResult where
  logs : List (String × Severity)
  outcome : Except String Unit

/-- The response-end handler of McpService.executeTool (mcpService.ts lines
283-304): trim and JSON.parse the body; a truthy `response.error` rejects
with `new Error(response.error.message)` after an error log line; otherwise
a success line is logged, a truthy `response.result` is additionally logged
as JSON, and the promise resolves.  Any exception inside the try (a parse
failure, or the member access throwing on a null response) is logged and
rejected. -/
def executeToolOnEnd (data : String) : ExecResult :=
  match jsonParse (jsTrim data) with
  | .error e =>
      let es := "SyntaxError: " ++ e
      { logs := [("Failed to parse tool response: " ++ es, .error)], outcome := .error es }
  | .ok response =>
      match jsGetStrict response "error" with
      | .error te =>
          { logs := [("Failed to parse tool response: " ++ te, .error)], outcome := .error te }
      | .ok errField =>
        if errField.truthy then
          let msg := jsGetMem errField "message"
          { logs := [("❌ Tool execution failed: " ++ jsToStr msg, .error)]
            outcome := .error (newErrorMessage msg) }
        else
          let res := jsGetMem response "result"
          { logs := [("✅ Tool executed successfully!", .success)] ++
              (if res.truthy then [("Result: " ++ jsonStringify res, .info)] else [])
            outcome := .ok () }

/-- What the webview message dispatcher in activate leaves behind for one
incoming message, given the response body the MCP server answers with. -/
structure DispatchResult where
  publishedTools : JSVal
  publishedError : Option String
  extraLogs : List (String × Severity)
  uncaught : Option String

/-- The `case 'fetchMcpTools'` arm of the dispatcher (commands.ts lines
1528-1530): it awaits fetchTools with no try/catch, so a rejection escapes
the async message handler as an uncaught rejection. -/
def dispatchFetchMcpTools (body : String) : DispatchResult :=
  let r := fetchToolsOnEnd body
  { publishedTools := r.publishedTools
    publishedError := r.publishedError
    extraLogs := []
    uncaught := match r.outcome with | .ok _ => none | .error e => some e }

/-- The fetchTools part of the `case 'quickStart'` arm (commands.ts lines
1521-1526): the await is wrapped in try/catch, so a rejection is swallowed
and replaced by an informational log line. -/
def dispatchQuickStartFetch (body : String) : DispatchResult :=
  let r := fetchToolsOnEnd body
  { publishedTools := r.publishedTools
    publishedError := r.publishedError
    extraLogs :=
      match r.outcome with
      | .ok _ => [("✅ Tools loaded successfully!", .success)]
      | .error _ =>
          [("⚠️  Could not fetch tools yet. Click \"Refresh Tools\" button once server is ready.", .info)]
    uncaught := none }

/-- Observable effects of the health monitor: terminal log lines, step
status updates pushed to the wizard panel, and liveness probe requests. -/
inductive MonitorEffect where
  | log (msg : String) (sev : Severity)
  | stepStatus (step : Nat) (status : String)
  | probe (req : HttpRequestConfig)

/-- McpService health-monitor state: the isMonitoring flag and the stored
interval handle, together with the host timer table (which interval handles
are currently scheduled) and a fresh-handle counter. -/
structure MonitorState where
  isMonitoring : Bool
  healthCheckInterval : Option Nat
  liveTimers : List Nat
  nextTimerId : Nat

/-- The stored interval handle and the host timer table agree: exactly the
stored handle (if any) is scheduled. -/
def monitorWF (s : MonitorState) : Prop :=
  s.liveTimers = s.healthCheckInterval.toList

/-- McpService.startHealthMonitoring (mcpService.ts lines 19-36): a no-op
when already monitoring; otherwise set the flag, log, run one immediate
health check and schedule the recurring 2 second interval. -/
def startHealthMonitoring (mcpPort : Nat) (s : MonitorState) :
    MonitorState × List MonitorEffect :=
  if s.isMonitoring then (s, [])
  else
    let id := s.nextTimerId
    ({ isMonitoring := true
       healthCheckInterval := some id
       liveTimers := s.liveTimers ++ [id]
       nextTimerId := id + 1 },
     [.log "🔍 Starting MCP server health monitoring..." .info,
      .probe (healthCheckRequest mcpPort)])

/-- McpService.stopHealthMonitoring (mcpService.ts lines 38-47): clear the
interval if one is stored, drop the flag, log. -/
def stopHealthMonitoring (s : MonitorState) : MonitorState × List MonitorEffect :=
  let s1 :=
    match s.healthCheckInterval with
    | some id =>
        { s with liveTimers := s.liveTimers.erase id, healthCheckInterval := none }
    | none => s
  ({ s1 with isMonitoring := false },
   [.log "🛑 Stopped MCP server health monitoring" .info])

/-- McpService.handleServerDown (mcpService.ts lines 111-122): a no-op when
monitoring already stopped; otherwise one error log line, one step-4 reset
to pending, then stopHealthMonitoring. -/
def handleServerDown (s : MonitorState) : MonitorState × List MonitorEffect :=
  if s.isMonitoring then
    let (s1, out1) := stopHealthMonitoring s
    (s1,
     [.log "⚠️  MCP server is not responding - resetting step 4" .error,
      .stepStatus 4 "pending"] ++ out1)
  else (s, [])

/-- How one health probe can end (mcpService.ts lines 66-107): a response
arrived (whatever its body), the response stream errored, the request
errored, the 5 second timeout fired, or writing the request body threw. -/
inductive ProbeOutcome where
  | responded
  | streamError
  | connectionError
  | timeout
  | sendFailure
  deriving DecidableEq

/-- Completion of one checkServerHealth probe: any received response just
resolves, every failure outcome runs handleServerDown. -/
def probeCompleted (s : MonitorState) (o : ProbeOutcome) :
    MonitorState × List MonitorEffect :=
  match o with
  | .responded => (s, [])
  | _ => handleServerDown s

/-- A tick of the host interval timer with handle id: it fires a new health
check only while that handle is still scheduled. -/
def intervalTick (mcpPort : Nat) (s : MonitorState) (id : Nat) :
    MonitorState × List MonitorEffect :=
  if id ∈ s.liveTimers then (s, [.probe (healthCheckRequest mcpPort)]) else (s, [])

/-- Number of error-severity log lines in a monitor effect list. -/
def errorLogCount (effs : List MonitorEffect) : Nat :=
  (effs.filter fun e => match e with | .log _ .error => true | _ => false).length

/-- Number of step status updates in a monitor effect list. -/
def stepStatusCount (effs : List MonitorEffect) : Nat :=
  (effs.filter fun e => match e with | .stepStatus _ _ => true | _ => false).length

/-- One rendered parameter input element of the tool form, as
collectToolParams reads it back from the DOM: the data-param and data-type
attributes, the text value and the checkbox state. -/
structure DomInput where
  param : String
  dtype : String
  value : String
  checked : Bool

/-- The default-seeding pass of collectToolParams (commands.ts lines
596-601): for each key of the properties object, store its default in the
argument map when one is declared (the member access `param.default` throws
on a nullish property entry, which would escape collectToolParams). -/
def seedDefaultsAux (properties : JSVal) :
    List String → List (String × JSVal) → Except String (List (String × JSVal))
  | [], params => .ok params
  | key :: rest, params =>
    match jsGetStrict (jsGetMem properties key) "default" with
    | .error e => .error e
    | .ok d =>
        seedDefaultsAux properties rest (if d.isUndefined then params else objSet params key d)

/-- The seeded argument map of a properties object. -/
def seedDefaults (properties : JSVal) : Except String (List (String × JSVal)) :=
  seedDefaultsAux properties (jsKeys properties) []

/-- The per-input body of the forEach in collectToolParams (commands.ts
lines 606-642): booleans take the checkbox state unconditionally; number
and integer fields are parsed with parseFloat/parseInt when non-empty;
array and object fields are JSON-parsed when their trimmed text is
non-empty, a parse failure alerting and leaving the map unchanged (the
`return null` in the source only leaves the forEach callback); anything
else stores the raw non-empty text. -/
def applyInput (params : List (String × JSVal)) (alerts : List String)
    (inp : DomInput) : List (String × JSVal) × List String :=
  if inp.dtype = "boolean" then
    (objSet params inp.param (.bool inp.checked), alerts)
  else if inp.dtype = "number" ∨ inp.dtype = "integer" then
    if inp.value ≠ "" then
      let n := if inp.dtype = "integer" then parseIntJS inp.value else parseFloatJS inp.value
      (objSet params inp.param (.num n), alerts)
    else (params, alerts)
  else if inp.dtype = "array" ∨ inp.dtype = "object" then
    if jsTrim inp.value ≠ "" then
      match jsonParse inp.value with
      | .ok v => (objSet params inp.param v, alerts)
      | .error e =>
          (params, alerts ++ ["Invalid JSON for parameter \"" ++ inp.param ++ "\": " ++ e])
    else (params, alerts)
  else
    if inp.value ≠ "" then (objSet params inp.param (.str inp.value), alerts)
    else (params, alerts)

/-- Left-to-right forEach over the input elements. -/
def applyInputs (start : List (String × JSVal) × List String) (inputs : List DomInput) :
    List (String × JSVal) × List String :=
  inputs.foldl (fun acc inp => applyInput acc.1 acc.2 inp) start

/-- collectToolParams (commands.ts lines 583-645): look the tool up, bail
out with null when it is missing, short-circuit to an empty map when the
schema or its properties are missing or empty, otherwise seed the defaults
and fold the user inputs over them.  The returned pair is the argument map
(none standing for the null return) together with the alert messages shown;
the Except layer carries a thrown TypeError. -/
def collectToolParams (availableTools : List JSVal) (toolIndex : Nat)
    (inputs : List DomInput) :
    Except String (Option (List (String × JSVal)) × List String) :=
  let tool := availableTools.getD toolIndex .undefVal
  if tool.truthy then
    let schema := jsGetMem tool "inputSchema"
    if schema.truthy then
      let properties := jsGetMem schema "properties"
      if properties.truthy then
        if (jsKeys properties).length = 0 then .ok (some [], [])
        else
          match seedDefaults properties with
          | .error e => .error e
          | .ok params0 =>
              let (params, alerts) := applyInputs (params0, []) inputs
              .ok (some params, alerts)
      else .ok (some [], [])
    else .ok (some [], [])
  else .ok (none, [])

/-- What one runTool click leaves behind: the alerts raised during
parameter collection and the tools/call HTTP requests that end up being
issued (runTool → executeToolDirect → the runMcpTool dispatcher arm →
McpService.executeTool). -/
structure RunToolResult where
  alerts : List String
  requests : List HttpRequestConfig

/-- runTool (commands.ts lines 572-581) composed with executeToolDirect
(lines 772-789) and the runMcpTool dispatcher arm (commands.ts lines
1531-1537): whenever collectToolParams returns a non-null map, exactly one
tools/call request is issued with it. -/
def runTool (mcpPort : Nat) (availableTools : List JSVal) (toolIndex : Nat)
    (inputs : List DomInput) : Except String RunToolResult :=
  match collectToolParams availableTools toolIndex inputs with
  | .error e => .error e
  | .ok (none, alerts) => .ok ⟨alerts, []⟩
  | .ok (some params, alerts) =>
      let tool := availableTools.getD toolIndex .undefVal
      .ok ⟨alerts, [executeToolRequest mcpPort (jsGetMem tool "name") params]⟩

/-- No property entry is nullish, so the seeding member access
`param.default` cannot throw (true of every JSON-schema properties object). -/
def propsOK (props : List (String × JSVal)) : Bool :=
  props.all fun kv => !kv.2.nullish

/-- The properties object declares a default for r (on its first binding,
the one JS property lookup sees). -/
def hasDefault (props : List (String × JSVal)) (r : String) : Bool :=
  !(jsGetMem (jsGetMem (.obj props) r) "default").isUndefined

/-- The user left this form input empty; a checkbox never counts as empty
because the source reads its state unconditionally. -/
def inputLeftEmpty (inp : DomInput) : Bool :=
  if inp.dtype = "boolean" then false
  else if inp.dtype = "number" ∨ inp.dtype = "integer" then inp.value = ""
  else if inp.dtype = "array" ∨ inp.dtype = "object" then jsTrim inp.value = ""
  else inp.value = ""

/-- Number of error-severity log lines. -/
def logErrorCount (logs : List (String × Severity)) : Nat :=
  (logs.filter fun p => p.2 == Severity.error).length

/-- A generic tool value whose schema carries the given properties and
required list, as published by tools/list and consumed by the webview. -/
def toolFor (props : List (String × JSVal)) (required : List String) : JSVal :=
  .obj [("name", .str "tool"),
        ("inputSchema", .obj [("properties", .obj props),
                              ("required", .arr (required.map JSVal.str))])]

theorem objGet?_objSet_self (m : List (String × JSVal)) (k : String) (v : JSVal) :
    objGet? (objSet m k v) k = some v := by
  induction m with
  | nil => simp [objSet, objGet?]
  | cons kv rest ih =>
      obtain ⟨k1, w⟩ := kv
      by_cases h : k1 = k
      · simp [objSet, h, objGet?]
      · simp [objSet, h, objGet?, ih]

theorem objGet?_objSet_ne (m : List (String × JSVal)) (key k : String) (v : JSVal)
    (h : key ≠ k) : objGet? (objSet m key v) k = objGet? m k := by
  induction m with
  | nil => simp [objSet, objGet?, h]
  | cons kv rest ih =>
      obtain ⟨k1, w⟩ := kv
      by_cases h1 : k1 = key
      · simp [objSet, h1, objGet?, h]
      · simp [objSet, h1, objGet?, ih]

theorem objGet?_objSet_isSome (m : List (String × JSVal)) (key k : String) (v : JSVal)
    (h : (objGet? m k).isSome = true) : (objGet? (objSet m key v) k).isSome = true := by
  by_cases hk : key = k
  · subst hk; simp [objGet?_objSet_self]
  · rw [objGet?_objSet_ne m key k v hk]; exact h

theorem objGet?_eq_some_mem (m : List (String × JSVal)) (k : String) (v : JSVal)
    (h : objGet? m k = some v) : (k, v) ∈ m := by
  induction m with
  | nil => simp [objGet?] at h
  | cons kv rest ih =>
      obtain ⟨k1, w⟩ := kv
      by_cases h1 : k1 = k
      · subst h1
        simp [objGet?] at h
        subst h
        exact List.mem_cons_self _ _
      · simp [objGet?, h1] at h
        exact List.mem_cons_of_mem _ (ih h)

theorem mem_map_fst_objGet? (m : List (String × JSVal)) (k : String)
    (h : k ∈ m.map Prod.fst) : ∃ v, objGet? m k = some v := by
  induction m with
  | nil => simp at h
  | cons kv rest ih =>
      obtain ⟨k1, w⟩ := kv
      by_cases h1 : k1 = k
      · exact ⟨w, by simp [objGet?, h1]⟩
      · have h2 : k ∈ rest.map Prod.fst := by
          simp only [List.map_cons, List.mem_cons] at h
          rcases h with h | h
          · exact absurd h.symm h1
          · exact h
        obtain ⟨v, hv⟩ := ih h2
        exact ⟨v, by simp [objGet?, h1, hv]⟩

theorem mapToolNames_ok (l : List JSVal) (h : ∀ t ∈ l, t.nullish = false) :
    ∃ ns, mapToolNames l = .ok ns := by
  induction l with
  | nil => exact ⟨[], rfl⟩
  | cons t rest ih =>
      have ht : t.nullish = false := h t (List.mem_cons_self _ _)
      obtain ⟨ns, hns⟩ := ih fun x hx => h x (List.mem_cons_of_mem _ hx)
      refine ⟨jsGetMem t "name" :: ns, ?_⟩
      simp [mapToolNames, jsGetStrict, ht, hns]

theorem nullish_of_default_present (v : JSVal)
    (h : (jsGetMem v "default").isUndefined = false) : v.nullish = false := by
  cases v
  case null => simp [jsGetMem, JSVal.isUndefined] at h
  case undefVal => simp [jsGetMem, JSVal.isUndefined] at h
  all_goals rfl

theorem seedAux_preserves (properties : JSVal) (r : String) :
    ∀ (keys : List String) (params m : List (String × JSVal)),
      seedDefaultsAux properties keys params = .ok m →
      (objGet? params r).isSome = true → (objGet? m r).isSome = true := by
  intro keys
  induction keys with
  | nil =>
      intro params m h hs
      simp only [seedDefaultsAux] at h
      cases h
      exact hs
  | cons key rest ih =>
      intro params m h hs
      cases hg : jsGetStrict (jsGetMem properties key) "default" with
      | error e =>
          rw [show seedDefaultsAux properties (key :: rest) params = .error e by
            simp only [seedDefaultsAux]; rw [hg]] at h
          cases h
      | ok d =>
          rw [show seedDefaultsAux properties (key :: rest) params =
              seedDefaultsAux properties rest
                (if d.isUndefined then params else objSet params key d) by
            simp only [seedDefaultsAux]; rw [hg]] at h
          cases hd : d.isUndefined <;> rw [hd] at h
          · simp only [Bool.false_eq_true, if_false] at h
            exact ih _ m h (objGet?_objSet_isSome _ _ _ _ hs)
          · simp only [if_true] at h
            exact ih _ m h hs

theorem seedAux_covers (props : List (String × JSVal)) (r : String)
    (hdef : hasDefault props r = true) :
    ∀ (keys : List String) (params m : List (String × JSVal)),
      seedDefaultsAux (.obj props) keys params = .ok m →
      r ∈ keys → (objGet? m r).isSome = true := by
  have hdef2 : (jsGetMem (jsGetMem (.obj props) r) "default").isUndefined = false := by
    simpa [hasDefault] using hdef
  intro keys
  induction keys with
  | nil => intro params m _ hr; simp at hr
  | cons key rest ih =>
      intro params m h hr
      by_cases hreq : r = key
      · subst hreq
        have hnn : (jsGetMem (.obj props) r).nullish = false :=
          nullish_of_default_present _ hdef2
        have hstrict : jsGetStrict (jsGetMem (.obj props) r) "default" =
            .ok (jsGetMem (jsGetMem (.obj props) r) "default") := by
          simp [jsGetStrict, hnn]
        rw [show seedDefaultsAux (.obj props) (r :: rest) params =
            seedDefaultsAux (.obj props) rest
              (if (jsGetMem (jsGetMem (.obj props) r) "default").isUndefined then params
               else objSet params r (jsGetMem (jsGetMem (.obj props) r) "default")) by
          simp only [seedDefaultsAux]; rw [hstrict]] at h
        rw [hdef2] at h
        simp only [Bool.false_eq_true, if_false] at h
        exact seedAux_preserves (.obj props) r rest _ m h
          (by rw [objGet?_objSet_self]; rfl)
      · rcases List.mem_cons.mp hr with h1 | h1
        · exact absurd h1 hreq
        · cases hg : jsGetStrict (jsGetMem (.obj props) key) "default" with
          | error e =>
              rw [show seedDefaultsAux (.obj props) (key :: rest) params = .error e by
                simp only [seedDefaultsAux]; rw [hg]] at h
              cases h
          | ok d =>
              rw [show seedDefaultsAux (.obj props) (key :: rest) params =
                  seedDefaultsAux (.obj props) rest
                    (if d.isUndefined then params else objSet params key d) by
                simp only [seedDefaultsAux]; rw [hg]] at h
              cases hd : d.isUndefined <;> rw [hd] at h
              · simp only [Bool.false_eq_true, if_false] at h
                exact ih _ m h h1
              · simp only [if_true] at h
                exact ih _ m h h1

theorem seedAux_ok (props : List (String × JSVal)) (hp : propsOK props = true) :
    ∀ (keys : List String), (∀ k ∈ keys, k ∈ props.map Prod.fst) →
      ∀ params, ∃ m, seedDefaultsAux (.obj props) keys params = .ok m := by
  intro keys
  induction keys with
  | nil => intro _ params; exact ⟨params, rfl⟩
  | cons key rest ih =>
      intro hk params
      obtain ⟨v, hv⟩ := mem_map_fst_objGet? props key (hk key (List.mem_cons_self _ _))
      have hmem : (key, v) ∈ props := objGet?_eq_some_mem _ _ _ hv
      have hnn : v.nullish = false := by
        have := List.all_eq_true.mp hp _ hmem
        simpa using this
      have hget : jsGetMem (.obj props) key = v := by simp [jsGetMem, hv]
      have hstrict : jsGetStrict (jsGetMem (.obj props) key) "default" =
          .ok (jsGetMem v "default") := by
        rw [hget]; simp [jsGetStrict, hnn]
      obtain ⟨m, hm⟩ := ih (fun k hksub => hk k (List.mem_cons_of_mem _ hksub))
        (if (jsGetMem v "default").isUndefined then params else objSet params key (jsGetMem v "default"))
      refine ⟨m, ?_⟩
      simp only [seedDefaultsAux]
      rw [hstrict]
      exact hm

theorem applyInput_left_empty (p : List (String × JSVal)) (a : List String)
    (inp : DomInput) (h : inputLeftEmpty inp = true) : applyInput p a inp = (p, a) := by
  unfold inputLeftEmpty at h
  unfold applyInput
  by_cases h1 : inp.dtype = "boolean"
  · rw [if_pos h1] at h; cases h
  · rw [if_neg h1] at h ⊢
    by_cases h2 : inp.dtype = "number" ∨ inp.dtype = "integer"
    · rw [if_pos h2] at h ⊢
      rw [decide_eq_true_eq] at h
      simp [h]
    · rw [if_neg h2] at h ⊢
      by_cases h3 : inp.dtype = "array" ∨ inp.dtype = "object"
      · rw [if_pos h3] at h ⊢
        rw [decide_eq_true_eq] at h
        simp [h]
      · rw [if_neg h3] at h ⊢
        rw [decide_eq_true_eq] at h
        simp [h]

theorem applyInputs_all_empty (inputs : List DomInput) :
    ∀ (p : List (String × JSVal)) (a : List String),
      inputs.all inputLeftEmpty = true → applyInputs (p, a) inputs = (p, a) := by
  induction inputs with
  | nil => intro p a _; rfl
  | cons inp rest ih =>
      intro p a h
      simp only [List.all_cons, Bool.and_eq_true] at h
      show List.foldl _ (applyInput p a inp) rest = (p, a)
      rw [applyInput_left_empty p a inp h.1]
      exact ih p a h.2

theorem collectToolParams_toolFor (props : List (String × JSVal))
    (required : List String) (inputs : List DomInput) :
    collectToolParams [toolFor props required] 0 inputs =
      if (props.map Prod.fst).length = 0 then .ok (some [], [])
      else
        match seedDefaults (.obj props) with
        | .error e => .error e
        | .ok params0 =>
            let (params, alerts) := applyInputs (params0, []) inputs
            .ok (some params, alerts) := rfl

theorem hasDefault_mem (props : List (String × JSVal)) (r : String)
    (h : hasDefault props r = true) : r ∈ props.map Prod.fst := by
  cases hv : objGet? props r with
  | some v => exact List.mem_map.mpr ⟨(r, v), objGet?_eq_some_mem _ _ _ hv, rfl⟩
  | none =>
      exfalso
      have hg : jsGetMem (.obj props) r = .undefVal := by simp [jsGetMem, hv]
      unfold hasDefault at h
      rw [hg] at h
      simp [jsGetMem, JSVal.isUndefined] at h

theorem collectToolParams_toolFor_seeded (props : List (String × JSVal))
    (required : List String) (inputs : List DomInput) (m0 : List (String × JSVal))
    (hne : (props.map Prod.fst).length ≠ 0)
    (hseed : seedDefaults (.obj props) = .ok m0) :
    collectToolParams [toolFor props required] 0 inputs =
      .ok (some (applyInputs (m0, []) inputs).1, (applyInputs (m0, []) inputs).2) := by
  rw [collectToolParams_toolFor, if_neg hne, hseed]

/-- The published tool exercising the array-parameter validation path: one
array-typed parameter named items, no defaults. -/
def c1Tool : JSVal :=
  .obj [("name", .str "add-frontend"),
        ("inputSchema", .obj [("properties",
          .obj [("items", .obj [("type", .str "array")])])])]

/-- The DOM input for that parameter with non-JSON text typed into it. -/
def c1BadInput : DomInput := ⟨"items", "array", "not json", false⟩

/-- Claim C1 (code bug): with the text "not json" typed into the
array-typed parameter items, collectToolParams raises the alert naming the
parameter, but the `return null` after the alert only leaves the forEach
callback rather than the function, so collectToolParams still returns an
argument map and runTool goes on to issue one tools/call HTTP request,
where the claim requires an aborted invocation, a null return and zero
requests (the sibling submitToolExecution implements exactly that abort
with its hasError flag). -/
theorem c1_invalid_json_still_requests :
    runTool 31338 [c1Tool] 0 [c1BadInput] =
      .ok ⟨["Invalid JSON for parameter \"items\": Unexpected token"],
           [executeToolRequest 31338 (.str "add-frontend") []]⟩ ∧
    collectToolParams [c1Tool] 0 [c1BadInput] =
      .ok (some [], ["Invalid JSON for parameter \"items\": Unexpected token"]) :=
  ⟨rfl, rfl⟩

/-- Claim C2 counterexample: for the malformed body, the fetchMcpTools
dispatcher arm ends with an uncaught rejection, so the parse error does
propagate uncaught past the call boundary, refuting the claim as stated. -/
theorem c2_fetch_reject_escapes_dispatcher :
    (dispatchFetchMcpTools "\x7bnot json").uncaught = some "SyntaxError: Unexpected token" ∧
    (dispatchFetchMcpTools "\x7bnot json").uncaught ≠ none :=
  ⟨rfl, fun h => nomatch h⟩

/-- Claim C2 (amended): for every tools/list response body that is not
valid JSON, fetchTools publishes the empty tool list together with a
non-empty error string and rejects its promise; the quickStart call site
catches that rejection, but the fetchMcpTools call site awaits with no
handler, so there the rejection escapes uncaught. -/
theorem c2_parse_failure_publishes_empty_and_rejects
    (body e : String) (hparse : jsonParse (jsTrim body) = .error e) :
    (fetchToolsOnEnd body).publishedTools = .arr [] ∧
    (fetchToolsOnEnd body).publishedError = some ("SyntaxError: " ++ e) ∧
    "SyntaxError: " ++ e ≠ "" ∧
    (fetchToolsOnEnd body).outcome = .error ("SyntaxError: " ++ e) ∧
    (dispatchQuickStartFetch body).uncaught = none ∧
    (dispatchFetchMcpTools body).uncaught = some ("SyntaxError: " ++ e) := by
  unfold dispatchQuickStartFetch dispatchFetchMcpTools fetchToolsOnEnd
  rw [hparse]
  refine ⟨rfl, rfl, ?_, rfl, rfl, rfl⟩
  intro hcontra
  have h2 : ("SyntaxError: " ++ e).data = "".data := congrArg String.data hcontra
  simp [String.data_append] at h2

/-- Claim C2 witness: the amended theorem at the concrete malformed body. -/
theorem c2_witness :
    (fetchToolsOnEnd "\x7bnot json").publishedTools = .arr [] ∧
    (fetchToolsOnEnd "\x7bnot json").publishedError = some "SyntaxError: Unexpected token" ∧
    (dispatchQuickStartFetch "\x7bnot json").uncaught = none := by
  have h := c2_parse_failure_publishes_empty_and_rejects "\x7bnot json" "Unexpected token" rfl
  exact ⟨h.1, h.2.1, h.2.2.2.2.1⟩

/-- Claim C3 counterexample: the executeTool request carries no client-side
timeout at all (the source never calls req.setTimeout there), refuting the
statement that every interactive request has a client-enforced 10 second
timeout. -/
theorem c3_executeTool_has_no_timeout :
    (executeToolRequest 31338 (.str "add-postgres") []).timeoutMs = none ∧
    (executeToolRequest 31338 (.str "add-postgres") []).timeoutMs ≠ some 10000 :=
  ⟨rfl, fun h => nomatch h⟩

/-- Claim C3 (amended): fetchTools requests carry a client-enforced 10
second timeout whose handler destroys the request, health probes carry a 5
second one likewise, and executeTool requests carry no client-side timeout. -/
theorem c3_request_timeouts (port : Nat) (name : JSVal) (args : List (String × JSVal)) :
    (fetchToolsRequest port).timeoutMs = some 10000 ∧
    (fetchToolsRequest port).destroysOnTimeout = true ∧
    (healthCheckRequest port).timeoutMs = some 5000 ∧
    (healthCheckRequest port).destroysOnTimeout = true ∧
    (executeToolRequest port name args).timeoutMs = none ∧
    (executeToolRequest port name args).destroysOnTimeout = false :=
  ⟨rfl, rfl, rfl, rfl, rfl, rfl⟩

theorem handleServerDown_monitoring (s : MonitorState)
    (hm : s.isMonitoring = true) (hwf : monitorWF s) :
    handleServerDown s =
      ({ isMonitoring := false, healthCheckInterval := none,
         liveTimers := [], nextTimerId := s.nextTimerId },
       [.log "⚠️  MCP server is not responding - resetting step 4" .error,
        .stepStatus 4 "pending",
        .log "🛑 Stopped MCP server health monitoring" .info]) := by
  obtain ⟨im, hci, lt, nid⟩ := s
  simp only at hm
  subst hm
  unfold monitorWF at hwf
  simp only at hwf
  unfold handleServerDown stopHealthMonitoring
  cases hci with
  | none =>
      simp only [Option.toList] at hwf
      subst hwf
      rfl
  | some id =>
      simp only [Option.toList] at hwf
      subst hwf
      simp [List.erase_cons_head]

/-- Claim C4: while the monitor is in the Monitoring state (with its stored
interval scheduled), a single failed probe (stream error, connection error,
timeout or send failure) produces exactly one error log line and exactly
one step-status call, namely step 4 to pending, and moves the monitor to
Idle with the recurring interval cleared, after which interval ticks fire
no further probes. -/
theorem c4_single_probe_failure_resets_and_idles
    (s : MonitorState) (o : ProbeOutcome) (port : Nat)
    (hm : s.isMonitoring = true) (hwf : monitorWF s) (ho : o ≠ .responded) :
    (probeCompleted s o).2 =
      [.log "⚠️  MCP server is not responding - resetting step 4" .error,
       .stepStatus 4 "pending",
       .log "🛑 Stopped MCP server health monitoring" .info] ∧
    errorLogCount (probeCompleted s o).2 = 1 ∧
    stepStatusCount (probeCompleted s o).2 = 1 ∧
    (probeCompleted s o).1.isMonitoring = false ∧
    (probeCompleted s o).1.healthCheckInterval = none ∧
    (probeCompleted s o).1.liveTimers = [] ∧
    (∀ id, intervalTick port (probeCompleted s o).1 id = ((probeCompleted s o).1, [])) := by
  have hpc : probeCompleted s o = handleServerDown s := by
    cases o with
    | responded => exact absurd rfl ho
    | streamError => rfl
    | connectionError => rfl
    | timeout => rfl
    | sendFailure => rfl
  rw [hpc, handleServerDown_monitoring s hm hwf]
  refine ⟨rfl, rfl, rfl, rfl, rfl, rfl, ?_⟩
  intro id
  simp [intervalTick]

/-- Claim C4 witness: the theorem at a concrete monitoring state and a
timed-out probe. -/
theorem c4_witness :
    (probeCompleted ⟨true, some 0, [0], 1⟩ .timeout).1.isMonitoring = false ∧
    stepStatusCount (probeCompleted ⟨true, some 0, [0], 1⟩ .timeout).2 = 1 ∧
    errorLogCount (probeCompleted ⟨true, some 0, [0], 1⟩ .timeout).2 = 1 ∧
    intervalTick 31338 (probeCompleted ⟨true, some 0, [0], 1⟩ .timeout).1 0 =
      ((probeCompleted ⟨true, some 0, [0], 1⟩ .timeout).1, []) := by
  have h := c4_single_probe_failure_resets_and_idles ⟨true, some 0, [0], 1⟩ .timeout 31338
    rfl rfl (by decide)
  exact ⟨h.2.2.2.1, h.2.2.1, h.2.1, h.2.2.2.2.2.2 0⟩

/-- Claim C5: from the Idle state (no stored interval, none scheduled),
startHealthMonitoring moves the monitor to Monitoring, logs, fires one
immediate probe and schedules exactly one recurring interval; calling it
again right away is a no-op that changes nothing and schedules nothing, so
two consecutive calls leave exactly one active timer. -/
theorem c5_startHealthMonitoring_idempotent (port : Nat) (s : MonitorState)
    (hidle : s.isMonitoring = false) (hto : s.healthCheckInterval = none)
    (hwf : monitorWF s) :
    (startHealthMonitoring port s).1.isMonitoring = true ∧
    (startHealthMonitoring port s).1.liveTimers = [s.nextTimerId] ∧
    (startHealthMonitoring port s).1.liveTimers.length = 1 ∧
    (startHealthMonitoring port s).1.healthCheckInterval = some s.nextTimerId ∧
    (startHealthMonitoring port s).2 =
      [.log "🔍 Starting MCP server health monitoring..." .info,
       .probe (healthCheckRequest port)] ∧
    startHealthMonitoring port (startHealthMonitoring port s).1 =
      ((startHealthMonitoring port s).1, []) := by
  have hlt : s.liveTimers = [] := by rw [hwf, hto]; rfl
  have h1 : startHealthMonitoring port s =
      ({ isMonitoring := true, healthCheckInterval := some s.nextTimerId,
         liveTimers := [s.nextTimerId], nextTimerId := s.nextTimerId + 1 },
       [.log "🔍 Starting MCP server health monitoring..." .info,
        .probe (healthCheckRequest port)]) := by
    unfold startHealthMonitoring
    rw [hidle]
    simp [hlt]
  rw [h1]
  exact ⟨rfl, rfl, rfl, rfl, rfl, rfl⟩

/-- Claim C5 witness: the theorem at the initial Idle state. -/
theorem c5_witness :
    (startHealthMonitoring 31338 ⟨false, none, [], 0⟩).1.liveTimers.length = 1 ∧
    startHealthMonitoring 31338 (startHealthMonitoring 31338 ⟨false, none, [], 0⟩).1 =
      ((startHealthMonitoring 31338 ⟨false, none, [], 0⟩).1, []) := by
  have h := c5_startHealthMonitoring_idempotent 31338 ⟨false, none, [], 0⟩ rfl rfl rfl
  exact ⟨h.2.2.1, h.2.2.2.2.2⟩

/-- Claim C6: for a boolean-typed parameter the coercion takes the checkbox
state unconditionally, so with a schema default of true and the checkbox
unchecked the argument map carries false - the explicit false overrides the
default and is never dropped. -/
theorem c6_bool_false_overrides_default_true
    (props : List (String × JSVal)) (required : List String)
    (name txt : String) (m0 : List (String × JSVal))
    (hdef : jsGetMem (jsGetMem (.obj props) name) "default" = .bool true)
    (hseed : seedDefaults (.obj props) = .ok m0) :
    collectToolParams [toolFor props required] 0 [⟨name, "boolean", txt, false⟩] =
      .ok (some (objSet m0 name (.bool false)), []) ∧
    objGet? (objSet m0 name (.bool false)) name = some (.bool false) := by
  have hd : hasDefault props name = true := by
    unfold hasDefault
    rw [hdef]
    rfl
  have hmem := hasDefault_mem props name hd
  have hne : (props.map Prod.fst).length ≠ 0 := by
    intro hc
    rw [List.length_eq_zero] at hc
    rw [hc] at hmem
    simp at hmem
  rw [collectToolParams_toolFor_seeded props required _ m0 hne hseed]
  have happ : applyInputs (m0, []) [⟨name, "boolean", txt, false⟩] =
      (objSet m0 name (.bool false), []) := rfl
  rw [happ]
  exact ⟨rfl, objGet?_objSet_self _ _ _⟩

/-- Claim C6 witness: the theorem at a concrete schema with default true
and an unchecked checkbox. -/
theorem c6_witness :
    collectToolParams
        [toolFor [("verbose", .obj [("type", .str "boolean"), ("default", .bool true)])] []]
        0 [⟨"verbose", "boolean", "", false⟩] =
      .ok (some [("verbose", .bool false)], []) := by
  have h := c6_bool_false_overrides_default_true
    [("verbose", .obj [("type", .str "boolean"), ("default", .bool true)])] []
    "verbose" "" [("verbose", .bool true)] rfl rfl
  exact h.1

/-- Claim C7: collectToolParams first seeds every schema-declared default
and only then overrides entries the user supplied: with every input left
empty the returned map is exactly the seeded defaults with no alert raised,
and whenever the required list is empty or fully covered by defaults that
map binds every required name, so the invocation is usable with no user
input. -/
theorem c7_defaults_seeded_without_input
    (props : List (String × JSVal)) (required : List String)
    (inputs : List DomInput) (m0 : List (String × JSVal))
    (hprops : propsOK props = true)
    (hseed : seedDefaults (.obj props) = .ok m0)
    (hreq : required.all (fun r => hasDefault props r) = true)
    (hinputs : inputs.all inputLeftEmpty = true) :
    collectToolParams [toolFor props required] 0 inputs = .ok (some m0, []) ∧
    required.all (fun r => (objGet? m0 r).isSome) = true := by
  constructor
  · by_cases hnil : (props.map Prod.fst).length = 0
    · have hpnil : props = [] := by
        rw [List.length_eq_zero] at hnil
        cases props with
        | nil => rfl
        | cons kv rest => simp at hnil
      subst hpnil
      have hm0 : m0 = [] := (Except.ok.inj hseed).symm
      subst hm0
      rw [collectToolParams_toolFor]
      rfl
    · rw [collectToolParams_toolFor_seeded props required inputs m0 hnil hseed]
      rw [applyInputs_all_empty inputs m0 [] hinputs]
  · rw [List.all_eq_true] at hreq ⊢
    intro r hr
    have hd := hreq r hr
    exact seedAux_covers props r hd (props.map Prod.fst) [] m0 hseed
      (hasDefault_mem props r hd)

/-- Claim C7 witness: the theorem at a schema whose one required parameter
carries a default, with the single text input left empty. -/
theorem c7_witness :
    collectToolParams
        [toolFor [("dir", .obj [("type", .str "string"), ("default", .str "src")])] ["dir"]]
        0 [⟨"dir", "string", "", false⟩] =
      .ok (some [("dir", .str "src")], []) ∧
    (["dir"].all fun r => (objGet? [("dir", .str "src")] r).isSome) = true :=
  c7_defaults_seeded_without_input _ _ _ _ rfl rfl rfl rfl

/-- Claim C10: for a number- or integer-typed parameter with non-empty text
on which the JS parse yields NaN, collectToolParams places NaN into the
argument map and raises no alert, and the invocation proceeds - runTool
issues the one tools/call request carrying that map - so unparseable
numeric input is not detected as a local validation error, unlike
unparseable JSON for array/object parameters. -/
theorem c10_nan_placed_and_invocation_proceeds
    (props : List (String × JSVal)) (required : List String) (port : Nat)
    (name text dt : String) (m0 : List (String × JSVal))
    (hseed : seedDefaults (.obj props) = .ok m0)
    (hmem : name ∈ props.map Prod.fst)
    (htext : text ≠ "")
    (hdt : (dt = "number" ∧ parseFloatJS text = .nan) ∨
           (dt = "integer" ∧ parseIntJS text = .nan)) :
    collectToolParams [toolFor props required] 0 [⟨name, dt, text, false⟩] =
      .ok (some (objSet m0 name (.num .nan)), []) ∧
    objGet? (objSet m0 name (.num .nan)) name = some (.num .nan) ∧
    runTool port [toolFor props required] 0 [⟨name, dt, text, false⟩] =
      .ok ⟨[], [executeToolRequest port (.str "tool") (objSet m0 name (.num .nan))]⟩ := by
  have hne : (props.map Prod.fst).length ≠ 0 := by
    intro hc
    rw [List.length_eq_zero] at hc
    rw [hc] at hmem
    simp at hmem
  have happ : applyInputs (m0, []) [⟨name, dt, text, false⟩] =
      (objSet m0 name (.num .nan), []) := by
    rcases hdt with ⟨hdtn, hnan⟩ | ⟨hdtn, hnan⟩ <;> subst hdtn
    · show applyInput m0 [] ⟨name, "number", text, false⟩ = _
      unfold applyInput
      rw [if_neg (by decide : ¬("number" = "boolean"))]
      rw [if_pos (by decide : ("number" = "number" ∨ "number" = "integer"))]
      rw [if_pos htext]
      rw [if_neg (by decide : ¬("number" = "integer"))]
      rw [hnan]
    · show applyInput m0 [] ⟨name, "integer", text, false⟩ = _
      unfold applyInput
      rw [if_neg (by decide : ¬("integer" = "boolean"))]
      rw [if_pos (by decide : ("integer" = "number" ∨ "integer" = "integer"))]
      rw [if_pos htext]
      rw [if_pos (by decide : ("integer" = "integer"))]
      rw [hnan]
  refine ⟨?_, objGet?_objSet_self _ _ _, ?_⟩
  · rw [collectToolParams_toolFor_seeded props required _ m0 hne hseed, happ]
  · unfold runTool
    rw [collectToolParams_toolFor_seeded props required _ m0 hne hseed, happ]
    rfl

/-- Claim C10 witness: the theorem at a number-typed parameter with the
text abc. -/
theorem c10_witness :
    collectToolParams [toolFor [("count", .obj [("type", .str "number")])] []]
        0 [⟨"count", "number", "abc", false⟩] =
      .ok (some [("count", .num .nan)], []) ∧
    runTool 31338 [toolFor [("count", .obj [("type", .str "number")])] []]
        0 [⟨"count", "number", "abc", false⟩] =
      .ok ⟨[], [executeToolRequest 31338 (.str "tool") [("count", .num .nan)]]⟩ := by
  have h := c10_nan_placed_and_invocation_proceeds
    [("count", .obj [("type", .str "number")])] [] 31338 "count" "abc" "number" []
    rfl (by decide) (by decide) (Or.inl ⟨rfl, rfl⟩)
  exact ⟨h.1, h.2.2⟩

theorem lengthGtZero_arr_cons (t : JSVal) (ts : List JSVal) :
    jsNumGtZero (jsToNumber (jsLengthVal (.arr (t :: ts)))) = true := by
  simp only [jsLengthVal, jsToNumber, jsNumGtZero, decide_eq_true_eq]
  have h : (0 : Nat) < (t :: ts).length := Nat.succ_pos _
  exact_mod_cast h

/-- Claim C8 counterexample: for the valid-JSON response whose tools field
is the truthy non-array true, fetchTools publishes that value as-is instead
of defaulting to the empty list, refuting the claim that a differing
response shape is published as an empty list. -/
theorem c8_truthy_nonarray_published_as_is :
    (fetchToolsOnEnd "\x7b\"result\":\x7b\"tools\":true\x7d\x7d").publishedTools = .bool true ∧
    (fetchToolsOnEnd "\x7b\"result\":\x7b\"tools\":true\x7d\x7d").publishedTools ≠ .arr [] :=
  ⟨rfl, fun h => nomatch h⟩

/-- Claim C8 (amended): for every valid-JSON tools/list response, when
`response?.result?.tools` is an array of non-null tool values it is
published to the UI sink unchanged with its order preserved and no error,
and when that field is absent or otherwise JS-falsy the empty list is
published; a truthy non-array value whose length property does not coerce
above zero is passed through as-is, while one whose length coerces above
zero makes the slice/map call throw into the catch, which publishes the
empty list together with a non-empty error and rejects. -/
theorem c8_fetchTools_publishes_list (data : String) (response : JSVal)
    (hparse : jsonParse (jsTrim data) = .ok response) :
    (∀ xs, jsOptChain (jsOptChain response "result") "tools" = .arr xs →
       xs.all (fun t => !t.nullish) = true →
       (fetchToolsOnEnd data).publishedTools = .arr xs ∧
       (fetchToolsOnEnd data).publishedError = none ∧
       (fetchToolsOnEnd data).outcome = .ok ()) ∧
    ((jsOptChain (jsOptChain response "result") "tools").truthy = false →
       (fetchToolsOnEnd data).publishedTools = .arr [] ∧
       (fetchToolsOnEnd data).publishedError = none ∧
       (fetchToolsOnEnd data).outcome = .ok ()) ∧
    (∀ v, jsOptChain (jsOptChain response "result") "tools" = v →
       v.truthy = true → v.isArr = false →
       jsNumGtZero (jsToNumber (jsLengthVal v)) = false →
       (fetchToolsOnEnd data).publishedTools = v ∧
       (fetchToolsOnEnd data).publishedError = none ∧
       (fetchToolsOnEnd data).outcome = .ok ()) ∧
    (∀ v, jsOptChain (jsOptChain response "result") "tools" = v →
       v.truthy = true → v.isArr = false →
       jsNumGtZero (jsToNumber (jsLengthVal v)) = true →
       ∃ e, (fetchToolsOnEnd data).publishedTools = .arr [] ∧
         (fetchToolsOnEnd data).publishedError = some e ∧ e ≠ "" ∧
         (fetchToolsOnEnd data).outcome = .error e) := by
  unfold fetchToolsOnEnd
  rw [hparse]
  dsimp only
  refine ⟨?_, ?_, ?_, ?_⟩
  · intro xs hxs hnn
    rw [hxs]
    have hor : jsOr (.arr xs) (.arr []) = .arr xs := rfl
    rw [hor]
    cases xs with
    | nil => exact ⟨rfl, rfl, rfl⟩
    | cons t ts =>
        obtain ⟨ns, hns⟩ := mapToolNames_ok ((t :: ts).take 3) (fun x hx => by
          have hxmem : x ∈ t :: ts := List.take_subset _ _ hx
          have hb := List.all_eq_true.mp hnn x hxmem
          simpa using hb)
        have hfs : ∃ ls, fetchSuccessLogs (.arr (t :: ts)) = .ok ls := by
          unfold fetchSuccessLogs
          dsimp only
          rw [if_pos (lengthGtZero_arr_cons t ts), hns]
          exact ⟨_, rfl⟩
        obtain ⟨ls, hls⟩ := hfs
        rw [hls]
        exact ⟨rfl, rfl, rfl⟩
  · intro hfalsy
    have hor : jsOr (jsOptChain (jsOptChain response "result") "tools") (.arr []) = .arr [] := by
      unfold jsOr
      rw [hfalsy]
      rfl
    rw [hor]
    exact ⟨rfl, rfl, rfl⟩
  · intro v hv htr hna hlen
    rw [hv]
    have hor : jsOr v (.arr []) = v := by
      unfold jsOr
      rw [htr]
      rfl
    rw [hor]
    have hfs : fetchSuccessLogs v = .ok [("⚠️  No tools found in response", .info)] := by
      unfold fetchSuccessLogs
      rw [hlen]
      rfl
    rw [hfs]
    exact ⟨rfl, rfl, rfl⟩
  · intro v hv htr hna hlen
    rw [hv]
    have hor : jsOr v (.arr []) = v := by
      unfold jsOr
      rw [htr]
      rfl
    rw [hor]
    have hfs : ∃ e, fetchSuccessLogs v = .error e ∧ e ≠ "" := by
      cases v with
      | arr xs => simp [JSVal.isArr] at hna
      | str t =>
          refine ⟨"TypeError: tools.slice(0, 3).map is not a function", ?_, by decide⟩
          unfold fetchSuccessLogs
          rw [hlen]
          rfl
      | obj fs =>
          refine ⟨"TypeError: tools.slice is not a function", ?_, by decide⟩
          unfold fetchSuccessLogs
          rw [hlen]
          rfl
      | undefVal => simp [JSVal.truthy] at htr
      | null => simp [JSVal.truthy] at htr
      | bool b => simp [jsLengthVal, jsToNumber, jsNumGtZero] at hlen
      | num n => simp [jsLengthVal, jsToNumber, jsNumGtZero] at hlen
    obtain ⟨e, hfse, hene⟩ := hfs
    rw [hfse]
    exact ⟨e, rfl, rfl, hene, rfl⟩

/-- Claim C8 witness: the amended theorem at the round-trip example body
with one tool descriptor, at a truthy non-array tools value without a
length (published as-is), and at a non-empty string tools value whose map
call throws into the catch (empty list published with an error, rejected). -/
theorem c8_witness :
    (fetchToolsOnEnd "\x7b\"result\":\x7b\"tools\":[\x7b\"name\":\"add-frontend\",\"description\":\"d\",\"inputSchema\":\x7b\"properties\":\x7b\x7d,\"required\":[]\x7d\x7d]\x7d\x7d").publishedTools =
      .arr [.obj [("name", .str "add-frontend"), ("description", .str "d"),
                  ("inputSchema", .obj [("properties", .obj []), ("required", .arr [])])]] ∧
    (fetchToolsOnEnd "\x7b\"result\":\x7b\"tools\":[\x7b\"name\":\"add-frontend\",\"description\":\"d\",\"inputSchema\":\x7b\"properties\":\x7b\x7d,\"required\":[]\x7d\x7d]\x7d\x7d").publishedError =
      none ∧
    (fetchToolsOnEnd "\x7b\"result\":\x7b\"tools\":true\x7d\x7d").publishedTools = .bool true ∧
    (fetchToolsOnEnd "\x7b\"result\":\x7b\"tools\":true\x7d\x7d").publishedError = none ∧
    (∃ e, (fetchToolsOnEnd "\x7b\"result\":\x7b\"tools\":\"x\"\x7d\x7d").publishedTools = .arr [] ∧
      (fetchToolsOnEnd "\x7b\"result\":\x7b\"tools\":\"x\"\x7d\x7d").publishedError = some e ∧
      e ≠ "" ∧
      (fetchToolsOnEnd "\x7b\"result\":\x7b\"tools\":\"x\"\x7d\x7d").outcome = .error e) := by
  have h1 := (c8_fetchTools_publishes_list
    "\x7b\"result\":\x7b\"tools\":[\x7b\"name\":\"add-frontend\",\"description\":\"d\",\"inputSchema\":\x7b\"properties\":\x7b\x7d,\"required\":[]\x7d\x7d]\x7d\x7d"
    (.obj [("result", .obj [("tools", .arr [.obj [("name", .str "add-frontend"),
      ("description", .str "d"),
      ("inputSchema", .obj [("properties", .obj []), ("required", .arr [])])]])])])
    rfl).1
    [.obj [("name", .str "add-frontend"), ("description", .str "d"),
           ("inputSchema", .obj [("properties", .obj []), ("required", .arr [])])]]
    rfl rfl
  have h3 := (c8_fetchTools_publishes_list "\x7b\"result\":\x7b\"tools\":true\x7d\x7d"
    (.obj [("result", .obj [("tools", .bool true)])]) rfl).2.2.1
    (.bool true) rfl rfl rfl rfl
  have h4 := (c8_fetchTools_publishes_list "\x7b\"result\":\x7b\"tools\":\"x\"\x7d\x7d"
    (.obj [("result", .obj [("tools", .str "x")])]) rfl).2.2.2
    (.str "x") rfl rfl rfl rfl
  exact ⟨h1.1, h1.2.1, h3.1, h3.2.1, h4⟩

/-- Claim C9 counterexample: the response body carrying the error field
bound to null contains an error field, yet executeTool resolves with the
success log line and no error line, refuting the claim that every response
containing an error field is rejected with an error line. -/
theorem c9_falsy_error_field_resolves :
    executeToolOnEnd "\x7b\"error\":null\x7d" =
      ⟨[("✅ Tool executed successfully!", .success)], .ok ()⟩ ∧
    logErrorCount (executeToolOnEnd "\x7b\"error\":null\x7d").logs = 0 :=
  ⟨rfl, rfl⟩

/-- Claim C9 (amended): for a parsed non-null response, a JS-truthy error
field whose message is a string rejects the call with exactly that message
after exactly one error log line (and no success line); an absent or falsy
error field resolves the call with the success line and no error line, the
result payload being additionally logged exactly when it is truthy. -/
theorem c9_executeTool_error_and_success (data : String) (response : JSVal)
    (hparse : jsonParse (jsTrim data) = .ok response)
    (hnn : response.nullish = false) :
    (∀ msg, (jsGetMem response "error").truthy = true →
       jsGetMem (jsGetMem response "error") "message" = .str msg →
       executeToolOnEnd data =
         ⟨[("❌ Tool execution failed: " ++ msg, .error)], .error msg⟩ ∧
       logErrorCount (executeToolOnEnd data).logs = 1) ∧
    ((jsGetMem response "error").truthy = false →
       (executeToolOnEnd data).outcome = .ok () ∧
       logErrorCount (executeToolOnEnd data).logs = 0 ∧
       (executeToolOnEnd data).logs =
         [("✅ Tool executed successfully!", .success)] ++
           (if (jsGetMem response "result").truthy then
              [("Result: " ++ jsonStringify (jsGetMem response "result"), .info)]
            else [])) := by
  unfold executeToolOnEnd
  rw [hparse]
  dsimp only
  have hstrict : jsGetStrict response "error" = .ok (jsGetMem response "error") := by
    simp [jsGetStrict, hnn]
  rw [hstrict]
  dsimp only
  constructor
  · intro msg htruthy hmsg
    rw [htruthy, hmsg]
    have hstr : jsToStr (.str msg) = msg := by simp [jsToStr]
    have hnew : newErrorMessage (.str msg) = msg := by
      unfold newErrorMessage
      exact hstr
    rw [if_pos rfl, hstr, hnew]
    exact ⟨rfl, rfl⟩
  · intro hfalsy
    rw [hfalsy]
    simp only [Bool.false_eq_true, if_false]
    refine ⟨by trivial, ?_, ?_⟩
    · cases hres : (jsGetMem response "result").truthy <;>
        simp [hres, logErrorCount]
    · cases hres : (jsGetMem response "result").truthy <;> simp [hres]

/-- Claim C9 witness: the amended theorem at the mocked error response with
message boom. -/
theorem c9_witness :
    executeToolOnEnd "\x7b\"error\":\x7b\"message\":\"boom\"\x7d\x7d" =
      ⟨[("❌ Tool execution failed: boom", .error)], .error "boom"⟩ ∧
    logErrorCount (executeToolOnEnd "\x7b\"error\":\x7b\"message\":\"boom\"\x7d\x7d").logs = 1 := by
  have h := (c9_executeTool_error_and_success "\x7b\"error\":\x7b\"message\":\"boom\"\x7d\x7d"
    (.obj [("error", .obj [("message", .str "boom")])]) rfl rfl).1 "boom" rfl rfl
  exact h
